import Mathlib

/-!
Verification of the reconciliation engine of dokku/docker-orchestrate.

This file shallowly embeds the pure decision logic of the Go sources
(internal/deploy.go and the internal compose/healthcheck modules) and
proves properties of the embedded definitions.  Engine and executor
effects (container listings, compose invocations, health inspections,
terminate results and script results) are passed in explicitly as data,
so every definition is executable on concrete inputs.
-/

/-- Model of `container.Summary` as used by the reconciler: the opaque id, the
engine-reported name list (each usually carrying a leading slash) and
the creation timestamp (`Created`, int64 seconds). -/
structure ContainerSummary where
  id : String
  names : List String
  created : Int
deriving DecidableEq, Repr

/-- The three-way comparator passed to the slice sort in
`sortContainersByCreationTime` (compose module): ascending by `created`
when `newestFirst` is false, descending when true; 0 on ties. -/
def containerCmp (newestFirst : Bool) (a b : ContainerSummary) : Int :=
  if newestFirst then
    if a.created > b.created then -1
    else if a.created < b.created then 1
    else 0
  else
    if a.created < b.created then -1
    else if a.created > b.created then 1
    else 0

/-- Insert `a` into `l` before the first element `b` with `cmp a b ≤ 0`.
Building block of the comparison-sort model below. -/
def orderedInsertByCmp (cmp : ContainerSummary → ContainerSummary → Int)
    (a : ContainerSummary) : List ContainerSummary → List ContainerSummary
  | [] => [a]
  | b :: l => if cmp a b ≤ 0 then a :: b :: l else b :: orderedInsertByCmp cmp a l

/-- Model of Go `slices.SortFunc` on container summaries: a comparison
sort that never reorders elements the comparator reports as equal.  (The
Go implementation sorts with pdqsort, which returns inputs untouched
whenever the comparator reports them nondecreasing — in particular on
all-tie lists — and uses insertion sort below 12 elements, so this model
agrees with it on every input whose comparator-equal elements are
contiguous, which covers all inputs considered in this file.) -/
def sortFuncModel (cmp : ContainerSummary → ContainerSummary → Int) :
    List ContainerSummary → List ContainerSummary
  | [] => []
  | a :: l => orderedInsertByCmp cmp a (sortFuncModel cmp l)

/-- Function `sortContainersByCreationTime` (compose module): sorts a container
list by `created`, oldest-first when `newestFirst` is false. -/
def sortContainersByCreationTime (cs : List ContainerSummary) (newestFirst : Bool) :
    List ContainerSummary :=
  sortFuncModel (containerCmp newestFirst) cs

/-- The "to update" selection of `DeployService` (internal/deploy.go,
after the optional scale-down): the re-queried running list is truncated
to the desired replica count first (`containersToUpdate =
containersToUpdate[:replicas]` when it is longer) and only then sorted
oldest-first. -/
def containersToUpdateSelection (queried : List ContainerSummary) (replicas : Nat) :
    List ContainerSummary :=
  let truncated := if replicas < queried.length then queried.take replicas else queried
  sortContainersByCreationTime truncated false

/-- Modelled from the spec claim (not from the source): the `d` oldest
containers by `created`, sorted oldest-first.  Used only to compare the
source's selection against the claim's wording. -/
def oldestByCreated (cs : List ContainerSummary) (d : Nat) : List ContainerSummary :=
  (sortContainersByCreationTime cs false).take d

/-- The slice of `types.ServiceConfig` that the skip policy can observe:
service name, image reference and service-level labels. -/
structure ServiceConfig where
  name : String
  image : String
  labels : List (String × String)
deriving DecidableEq, Repr

/-- The closed database-repository list of `isDatabaseService`
(internal/deploy.go). -/
def databaseImageRepositories : List String :=
  [ "clickhouse/clickhouse-server"
  , "library/couchdb"
  , "library/elasticsearch"
  , "dokku/docker-grafana-graphite"
  , "library/mariadb"
  , "getmeili/meilisearch"
  , "library/memcached"
  , "library/mongo"
  , "library/mysql"
  , "library/nats"
  , "omnisci/core-os-cpu"
  , "library/postgres"
  , "fanout/pushpin"
  , "library/rabbitmq"
  , "library/redis"
  , "library/rethinkdb"
  , "library/solr"
  , "typesense/typesense" ]

/-- Function `isDatabaseService` (internal/deploy.go): parse the image reference
(the external docker-parser library, passed in as `shortNameOf`; `none`
models a parse error, which is logged and treated as "not a database")
and test the short name against the closed repository list. -/
def isDatabaseService (shortNameOf : String → Option String) (s : ServiceConfig) : Bool :=
  match shortNameOf s.image with
  | none => false
  | some shortName => databaseImageRepositories.contains shortName

/-- Function `shouldSkipService` (internal/deploy.go): the entire skip policy of
the reconciler.  It consults only the skip-databases flag and the
database detector; the service's labels (and any model/provider data)
are not examined. -/
def shouldSkipService (shortNameOf : String → Option String) (s : ServiceConfig)
    (shouldSkipDatabases : Bool) : Bool :=
  shouldSkipDatabases && isDatabaseService shortNameOf s

/-- A short-name function for the concrete images used in the theorems
below, following docker-parser's familiar-name rules ("nginx" parses to
"library/nginx", "postgres" to "library/postgres"). -/
def exShortNameOf (image : String) : Option String :=
  if image = "nginx:alpine" then some "library/nginx"
  else if image = "postgres:14" then some "library/postgres"
  else none

/-- A service carrying the documented skip label
`com.dokku.orchestrate/skip="true"` and a non-database image. -/
def skipLabeledService : ServiceConfig :=
  { name := "web"
  , image := "nginx:alpine"
  , labels := [("com.dokku.orchestrate/skip", "true")] }

/-- The shared failure-ratio comparison of the three batch operators:
Go computes `float64(failures)/float64(totalUpdates) > float64(bound)`.
Division is modelled exactly over ℚ; the zero-denominator cases follow
the float semantics the Go code hits (`0/0 = NaN`, which compares false;
`f/0 = +Inf` for `f > 0`, which compares true against any finite bound). -/
def ratioGT (failures totalUpdates : Nat) (bound : ℚ) : Bool :=
  if totalUpdates = 0 then
    decide (failures ≠ 0)
  else
    decide (bound < (failures : ℚ) / (totalUpdates : ℚ))

/-- The post-join failure check shared verbatim by
`rollingUpdateBatchStartFirst`, `rollingUpdateBatchStopFirst` and
`scaleUpContainers`: first the ratio gate (only when the configured
bound is positive, with a message that depends on the failure action),
then the pause gate (`failure_action = pause` and any failure).
`none` means the batch proceeds. -/
def checkBatchFailureRatio (failures totalUpdates : Nat) (bound : ℚ)
    (failureAction : String) : Option String :=
  if 0 < bound ∧ ratioGT failures totalUpdates bound then
    if failureAction = "pause" then
      some "max failure ratio exceeded, pausing deployment"
    else
      some "max failure ratio exceeded"
  else if failureAction = "pause" ∧ 0 < failures then
    some "deployment paused due to failure (failure_action: pause)"
  else
    none

/-- The two batch-local counters (`output.TotalUpdates`,
`output.Failures`), guarded in the source by one mutex. -/
structure UpdateCounters where
  totalUpdates : Nat
  failures : Nat
deriving DecidableEq, Repr

/-- The update-config data the batch operators read:
`MaxFailureRatio` (float32 in the source, modelled as an exact rational
`ratioBound`) and `FailureAction`. -/
structure RollingUpdateConfig where
  ratioBound : ℚ
  failureAction : String

/-- New-container derivation shared by both batch orders: the containers
of the post-`compose up` listing whose id is absent from the pre-batch
snapshot, in listing order. -/
def newContainersOf (allAfterUp snapshot : List ContainerSummary) :
    List ContainerSummary :=
  allAfterUp.filter (fun c => ! snapshot.any (fun e => e.id = c.id))

/-- Cap on surplus newcomers: when more new containers appear than the
batch size, sort newest-first and keep the `k` newest; otherwise keep
the derived list as is. -/
def capToNewest (newContainers : List ContainerSummary) (k : Nat) :
    List ContainerSummary :=
  if k < newContainers.length then
    (sortContainersByCreationTime newContainers true).take k
  else
    newContainers

/-- The worker fan-out of a start-first batch.  One entry of
`healthResults` per spawned worker (the health-wait outcome for its new
container); `oldQueue` is the channel pre-filled with the batch's old
containers.  Every worker bumps `TotalUpdates`; a failed worker bumps
`Failures` and cleans up its own new container; a successful worker
dequeues at most one old container and terminates it.  The dequeue order
is the channel order, so the terminated old containers do not depend on
worker interleaving; the result is (terminated old containers, added
total updates, added failures). -/
def runStartFirstWorkers (healthResults : List Bool)
    (oldQueue : List ContainerSummary) :
    List ContainerSummary × Nat × Nat :=
  match healthResults with
  | [] => ([], 0, 0)
  | h :: hs =>
      if h then
        match oldQueue with
        | [] =>
            let r := runStartFirstWorkers hs []
            (r.1, r.2.1 + 1, r.2.2)
        | o :: rest =>
            let r := runStartFirstWorkers hs rest
            (o :: r.1, r.2.1 + 1, r.2.2)
      else
        let r := runStartFirstWorkers hs oldQueue
        (r.1, r.2.1 + 1, r.2.2 + 1)

/-- Engine/executor outcomes consumed by one start-first batch. -/
structure StartFirstEnv where
  /-- the running containers listed at the head of the batch (`R₀`) -/
  currentRunning : List ContainerSummary
  /-- whether the `compose up --scale` invocation succeeds -/
  upOk : Bool
  /-- the all-status listing taken after `compose up` (`R₁`) -/
  allAfterUp : List ContainerSummary
  /-- the health-wait outcome for a given new container -/
  health : ContainerSummary → Bool

/-- Result of one rolling-update batch: the old containers it
terminated, the accumulated counters, and the error (if any) raised
after all workers joined. -/
structure BatchResult where
  terminated : List ContainerSummary
  counters : UpdateCounters
  err : Option String
deriving Repr

/-- Function `rollingUpdateBatchStartFirst` (compose module): list running
containers, `compose up` to `|R₀| + |batch|`, derive the newcomers and
cap them to the batch size, fan out one worker per newcomer over the
old-container queue, then run the shared post-join failure check.  The
source's `batchErr` local is declared but never assigned in this
function, so the check is the only error source after a successful
`compose up`. -/
def rollingUpdateBatchStartFirst (env : StartFirstEnv)
    (cfg : RollingUpdateConfig) (batch : List ContainerSummary)
    (counters : UpdateCounters) : BatchResult :=
  if env.upOk = false then
    { terminated := [], counters := counters
    , err := some "error creating new containers" }
  else
    let newContainers :=
      capToNewest (newContainersOf env.allAfterUp env.currentRunning) batch.length
    let healthResults := newContainers.map env.health
    let w := runStartFirstWorkers healthResults batch
    let counters2 : UpdateCounters :=
      { totalUpdates := counters.totalUpdates + w.2.1
      , failures := counters.failures + w.2.2 }
    { terminated := w.1
    , counters := counters2
    , err := checkBatchFailureRatio counters2.failures counters2.totalUpdates
        cfg.ratioBound cfg.failureAction }

/-- The worker fan-out of a stop-first batch: one worker per newcomer,
each bumping `TotalUpdates` and, on health failure, `Failures` (the
failed newcomer is cleaned up; a healthy one is only logged).  Returns
(added total updates, added failures). -/
def runStopFirstWorkers (healthResults : List Bool) : Nat × Nat :=
  (healthResults.length, healthResults.countP (fun h => h = false))

/-- Engine/executor outcomes consumed by one stop-first batch. -/
structure StopFirstEnv where
  /-- terminate outcome per old-container id -/
  termOkOld : String → Bool
  /-- the all-status listing taken after the batch was stopped (`R₀`) -/
  afterStop : List ContainerSummary
  /-- whether the `compose up --scale` invocation succeeds -/
  upOk : Bool
  /-- the all-status listing taken after `compose up` (`R₁`) -/
  allAfterUp : List ContainerSummary
  /-- the health-wait outcome for a given new container -/
  health : ContainerSummary → Bool

/-- Function `rollingUpdateBatchStopFirst` (compose module): terminate the whole
batch concurrently (any terminate error aborts the batch), list, then
`compose up`, derive and cap the newcomers, fan out health-wait workers,
and run the same shared post-join failure check. -/
def rollingUpdateBatchStopFirst (env : StopFirstEnv)
    (cfg : RollingUpdateConfig) (batch : List ContainerSummary)
    (counters : UpdateCounters) : BatchResult :=
  if batch.any (fun c => env.termOkOld c.id = false) then
    { terminated := batch.filter (fun c => env.termOkOld c.id)
    , counters := counters
    , err := some "error stopping containers in batch" }
  else if env.upOk = false then
    { terminated := batch, counters := counters
    , err := some "error starting new containers" }
  else
    let newContainers :=
      capToNewest (newContainersOf env.allAfterUp env.afterStop) batch.length
    let healthResults := newContainers.map env.health
    let w := runStopFirstWorkers healthResults
    let counters2 : UpdateCounters :=
      { totalUpdates := counters.totalUpdates + w.1
      , failures := counters.failures + w.2 }
    { terminated := batch
    , counters := counters2
    , err := checkBatchFailureRatio counters2.failures counters2.totalUpdates
        cfg.ratioBound cfg.failureAction }

/-- The batch loop header shared by `rollingUpdateContainers` and
`scaleUpContainers`: `for i := 0; i < n; i += parallelism`.  After `k`
iterations the index is `k * parallelism`; the loop exits once the index
reaches `n`.  `parallelism` is ℤ because the Go field is a signed int
and neither function validates it. -/
def batchLoopIndex (parallelism : Int) (k : Nat) : Int :=
  (k : Int) * parallelism

/-- The batches the loop processes for a positive parallelism: successive
`take`/`drop` slices of the work list (`input.ContainersToUpdate[i : i+batchSize]`).
The `0` case is unreachable there (the loop never advances, see
`batchLoopIndex`); it is mapped to `[]` to keep the model total. -/
def batchChunks : Nat → List ContainerSummary → List (List ContainerSummary)
  | _, [] => []
  | 0, _ :: _ => []
  | p + 1, a :: l =>
      (a :: l).take (p + 1) :: batchChunks (p + 1) ((a :: l).drop (p + 1))
termination_by _ l => l.length
decreasing_by
  simp only [List.length_drop, List.length_cons]
  omega

/-- The full start-first rolling update (`rollingUpdateContainers` with
`order = start-first`): walk the oldest-first work list in batches of
`parallelism = p + 1`, each batch spawning at most `|batch|` workers
(`healthResults` supplies one outcome list per batch; the source caps
newcomers to the batch size, hence the `take`).  Accumulates the old
containers terminated and the two counters across batches. -/
def runStartFirstUpdate : Nat → List ContainerSummary → List (List Bool) →
    List ContainerSummary × Nat × Nat
  | _, [], _ => ([], 0, 0)
  | 0, _ :: _, _ => ([], 0, 0)
  | p + 1, a :: olds, healthLists =>
      let batch := (a :: olds).take (p + 1)
      let hs := (healthLists.headD []).take batch.length
      let w := runStartFirstWorkers hs batch
      let rest := runStartFirstUpdate (p + 1) ((a :: olds).drop (p + 1)) healthLists.tail
      (w.1 ++ rest.1, w.2.1 + rest.2.1, w.2.2 + rest.2.2)
termination_by _ l _ => l.length
decreasing_by
  simp only [List.length_drop, List.length_cons]
  omega

/-- One engine/script interaction of scale-down, recording the
container id and, for the scripts, whether the script succeeded (the
outcome is recorded but never consulted: pre/post-stop failures are
swallowed). -/
inductive ScaleDownEvent where
  | preStop (id : String) (ok : Bool)
  | terminateOld (id : String)
  | postStop (id : String) (ok : Bool)
deriving DecidableEq, Repr

/-- The per-container body of the scale-down loop, over the containers
chosen for removal: run the pre-stop script (result swallowed),
terminate (a failure aborts with `error scaling down`), run the
post-stop script (result swallowed), continue.  Returns the event trace
and whether scale-down completed. -/
def processRemovals (termOk preOk postOk : String → Bool) :
    List ContainerSummary → List ScaleDownEvent × Bool
  | [] => ([], true)
  | c :: rest =>
      if termOk c.id then
        let r := processRemovals termOk preOk postOk rest
        (ScaleDownEvent.preStop c.id (preOk c.id) ::
          ScaleDownEvent.terminateOld c.id ::
          ScaleDownEvent.postStop c.id (postOk c.id) :: r.1, r.2)
      else
        ([ScaleDownEvent.preStop c.id (preOk c.id),
          ScaleDownEvent.terminateOld c.id], false)

/-- Function `scaleDownContainers` (compose module): compute
`toRemove = CurrentReplicas - DesiredReplicas` (signed; nothing to do
when ≤ 0), sort the current containers oldest-first, and run the
removal loop over the first `toRemove` of them. -/
def scaleDownContainers (currentContainers : List ContainerSummary)
    (currentReplicas desiredReplicas : Int) (termOk preOk postOk : String → Bool) :
    List ScaleDownEvent × Bool :=
  let toRemove := currentReplicas - desiredReplicas
  if toRemove ≤ 0 then ([], true)
  else
    let sorted := sortContainersByCreationTime currentContainers false
    processRemovals termOk preOk postOk (sorted.take toRemove.toNat)

/-- The event trace of a fully successful removal run: the
pre-stop/terminate/post-stop triple of every processed container, in
processing order. -/
def scaleDownTrace (preOk postOk : String → Bool) :
    List ContainerSummary → List ScaleDownEvent
  | [] => []
  | c :: rest =>
      ScaleDownEvent.preStop c.id (preOk c.id) ::
        ScaleDownEvent.terminateOld c.id ::
        ScaleDownEvent.postStop c.id (postOk c.id) ::
        scaleDownTrace preOk postOk rest

/-- Model of `strings.TrimPrefix(name, "/")`: drop one leading slash when
present (phrased over the character list so it evaluates on
literals). -/
def trimLeadingSlash (s : String) : String :=
  match s.data with
  | [] => s
  | c :: rest => if c = '/' then String.mk rest else s

/-- The display name the rename pass compares against: the container's
first engine name with its leading slash stripped, or "" when the
engine reports no names. -/
def firstNameOf (c : ContainerSummary) : String :=
  match c.names with
  | [] => ""
  | n :: _ => trimLeadingSlash n

/-- The indexed rename loop of `renameContainersToConvention`: for the
`i`-th (0-based) container of the sorted list, render the template at
`InstanceID = i + 1` and issue a rename engine call (id, new name) only
when the current first name differs. -/
def renameLoop (render : Nat → String) :
    List ContainerSummary → Nat → List (String × String)
  | [], _ => []
  | c :: rest, instanceID =>
      let newName := render instanceID
      (if firstNameOf c ≠ newName then [(c.id, newName)] else []) ++
        renameLoop render rest (instanceID + 1)

/-- Function `renameContainersToConvention` (compose module): nothing to do on an
empty list; otherwise parse the name template (modelled by the rendered
function `render : InstanceID → String`, project and service name
already applied), sort the containers oldest-first, and run the rename
loop with instance ids starting at 1.  The returned list holds the
rename engine calls issued; the source returns success when every
issued call succeeds, in particular whenever the list is empty. -/
def renameContainersToConvention (containers : List ContainerSummary)
    (render : Nat → String) : List (String × String) :=
  if containers.isEmpty then []
  else renameLoop render (sortContainersByCreationTime containers false) 1

/-- Engine-reported container state, as the health waiter reads it from
`ContainerInspect`: the running flag and the optional health status
(present only when the container has a health check configured). -/
structure HealthState where
  running : Bool
  health : Option String
deriving DecidableEq, Repr

/-- The monitor substitution of `waitForDockerHealthCheck`
(healthchecks module): a zero monitor is replaced by 1 ms.  Durations
are int64 nanoseconds, as in Go `time.Duration`. -/
def effectiveMonitor (monitor : Int) : Int :=
  if monitor = 0 then 1000000 else monitor

/-- The deadline of the engine-health wait: `now + 2 * monitor` (after
the zero-monitor substitution). -/
def healthDeadline (startTime monitor : Int) : Int :=
  startTime + 2 * effectiveMonitor monitor

/-- Outcome of one tick of the engine-health wait loop. -/
inductive TickOutcome where
  | success
  | failed (msg : String)
  | continueWaiting
deriving DecidableEq, Repr

/-- One tick of `waitForDockerHealthCheck`: past the deadline fail with
the timeout error; otherwise inspect (an inspect error, modelled as
`none`, fails); with no health config succeed exactly when running;
with health config succeed on "healthy", fail on "unhealthy", keep
waiting on "starting" or any other status. -/
def healthCheckTick (deadline now : Int) (inspected : Option HealthState) :
    TickOutcome :=
  if deadline < now then
    TickOutcome.failed "health check timeout"
  else
    match inspected with
    | none => TickOutcome.failed "error inspecting container"
    | some st =>
        match st.health with
        | none =>
            if st.running then TickOutcome.success
            else TickOutcome.failed "container is not running"
        | some status =>
            if status = "healthy" then TickOutcome.success
            else if status = "unhealthy" then TickOutcome.failed "container is unhealthy"
            else TickOutcome.continueWaiting

/-- The engine-health wait stage (`waitForDockerHealthCheck`): process
the tick stream (each tick carrying its wall-clock time and the inspect
result) until a tick is decisive; `none` means the stream ended with
the waiter still waiting. -/
def waitForDockerHealthCheck (monitor startTime : Int)
    (ticks : List (Int × Option HealthState)) : Option TickOutcome :=
  match ticks with
  | [] => none
  | (now, inspected) :: rest =>
      match healthCheckTick (healthDeadline startTime monitor) now inspected with
      | TickOutcome.continueWaiting => waitForDockerHealthCheck monitor startTime rest
      | outcome => some outcome

-- DEFINITIONS CONTINUE ABOVE; THEOREMS BELOW

theorem orderedInsertByCmp_perm (cmp : ContainerSummary → ContainerSummary → Int)
    (a : ContainerSummary) (l : List ContainerSummary) :
    (orderedInsertByCmp cmp a l).Perm (a :: l) := by
  induction l with
  | nil => simp [orderedInsertByCmp]
  | cons b l ih =>
      by_cases h : cmp a b ≤ 0
      · simp [orderedInsertByCmp, h]
      · simp only [orderedInsertByCmp, if_neg h]
        exact (ih.cons b).trans (List.Perm.swap a b l)

theorem sortFuncModel_perm (cmp : ContainerSummary → ContainerSummary → Int)
    (l : List ContainerSummary) : (sortFuncModel cmp l).Perm l := by
  induction l with
  | nil => simp [sortFuncModel]
  | cons a l ih =>
      exact (orderedInsertByCmp_perm cmp a (sortFuncModel cmp l)).trans (ih.cons a)

/-- A list on which the comparator never reports "strictly greater" at a
consecutive pair is returned unchanged by the sort model. -/
theorem sortFuncModel_of_chain (cmp : ContainerSummary → ContainerSummary → Int)
    (l : List ContainerSummary) (h : l.Chain' (fun a b => cmp a b ≤ 0)) :
    sortFuncModel cmp l = l := by
  induction l with
  | nil => rfl
  | cons a l ih =>
      have hl : l.Chain' (fun a b => cmp a b ≤ 0) := h.tail
      rw [sortFuncModel, ih hl]
      cases l with
      | nil => rfl
      | cons b l =>
          have hab : cmp a b ≤ 0 := List.chain'_cons.mp h |>.1
          simp [orderedInsertByCmp, hab]

/-- The ascending comparator reports "not strictly greater" exactly on
`created`-nondecreasing pairs. -/
theorem containerCmp_asc_le (a b : ContainerSummary) :
    containerCmp false a b ≤ 0 ↔ a.created ≤ b.created := by
  unfold containerCmp
  rcases lt_trichotomy a.created b.created with h | h | h
  · simp [h, le_of_lt h]
  · simp [h, not_lt.mpr (le_of_eq h)]
  · simp [h, not_lt.mpr (le_of_lt h), not_le.mpr h]

theorem orderedInsertByCmp_pairwise_asc (a : ContainerSummary)
    (l : List ContainerSummary)
    (hl : l.Pairwise (fun x y => x.created ≤ y.created)) :
    (orderedInsertByCmp (containerCmp false) a l).Pairwise
      (fun x y => x.created ≤ y.created) := by
  induction l with
  | nil => simp [orderedInsertByCmp]
  | cons b l ih =>
      by_cases h : containerCmp false a b ≤ 0
      · have hab : a.created ≤ b.created := (containerCmp_asc_le a b).mp h
        simp only [orderedInsertByCmp, if_pos h]
        refine List.pairwise_cons.mpr ⟨?_, hl⟩
        intro y hy
        rcases List.mem_cons.mp hy with hy | hy
        · exact hy ▸ hab
        · exact le_trans hab ((List.pairwise_cons.mp hl).1 y hy)
      · have hba : b.created ≤ a.created := by
          have := (containerCmp_asc_le a b).not.mp h
          omega
        simp only [orderedInsertByCmp, if_neg h]
        refine List.pairwise_cons.mpr ⟨?_, ih (List.pairwise_cons.mp hl).2⟩
        intro y hy
        have hmem : y ∈ a :: l :=
          (orderedInsertByCmp_perm (containerCmp false) a l).mem_iff.mp hy
        rcases List.mem_cons.mp hmem with hmem | hmem
        · exact hmem ▸ hba
        · exact (List.pairwise_cons.mp hl).1 y hmem

/-- The oldest-first sort produces a `created`-nondecreasing list. -/
theorem sortContainersByCreationTime_asc_pairwise (cs : List ContainerSummary) :
    (sortContainersByCreationTime cs false).Pairwise
      (fun x y => x.created ≤ y.created) := by
  induction cs with
  | nil => simp [sortContainersByCreationTime, sortFuncModel]
  | cons a l ih =>
      exact orderedInsertByCmp_pairwise_asc a _ ih

theorem sortContainersByCreationTime_perm (cs : List ContainerSummary)
    (newestFirst : Bool) :
    (sortContainersByCreationTime cs newestFirst).Perm cs :=
  sortFuncModel_perm _ cs

/-- An already `created`-nondecreasing list is a fixed point of the
oldest-first sort. -/
theorem sortContainersByCreationTime_of_sorted (cs : List ContainerSummary)
    (h : cs.Pairwise (fun a b => a.created ≤ b.created)) :
    sortContainersByCreationTime cs false = cs :=
  sortFuncModel_of_chain _ _
    (List.Chain'.imp (fun a b hab => (containerCmp_asc_le a b).mpr hab) h.chain')

/-- C8: on any container list whose elements all share one `created`
value, `sortContainersByCreationTime` (either direction) returns the
list in its original input order. -/
theorem sortContainersByCreationTime_stable_on_ties
    (cs : List ContainerSummary) (newestFirst : Bool)
    (h : ∀ a ∈ cs, ∀ b ∈ cs, a.created = b.created) :
    sortContainersByCreationTime cs newestFirst = cs := by
  apply sortFuncModel_of_chain
  apply List.Pairwise.chain'
  apply List.pairwise_of_forall_mem_list
  intro a ha b hb
  have hab := h a ha b hb
  cases newestFirst <;> simp [containerCmp, hab]

/-- Witness for C8 at a concrete two-element tie. -/
theorem sortContainersByCreationTime_stable_on_ties_witness :
    sortContainersByCreationTime
        [⟨"c1", ["/c1"], 7⟩, ⟨"c2", ["/c2"], 7⟩] true
      = [⟨"c1", ["/c1"], 7⟩, ⟨"c2", ["/c2"], 7⟩] :=
  sortContainersByCreationTime_stable_on_ties
    [⟨"c1", ["/c1"], 7⟩, ⟨"c2", ["/c2"], 7⟩] true (by decide)

/-- C1, counterexample: when the engine returns the re-queried running
list newest-first, the selection truncates before sorting, so with
`d = 1` it passes the *newest* container to the rolling update, not the
oldest one. -/
theorem containersToUpdateSelection_not_oldest :
    containersToUpdateSelection [⟨"newer", [], 100⟩, ⟨"older", [], 50⟩] 1
        = [⟨"newer", [], 100⟩]
      ∧ oldestByCreated [⟨"newer", [], 100⟩, ⟨"older", [], 50⟩] 1
        = [⟨"older", [], 50⟩]
      ∧ (⟨"newer", [], 100⟩ : ContainerSummary) ≠ ⟨"older", [], 50⟩ := by
  refine ⟨rfl, rfl, ?_⟩
  decide

/-- C1, amended: the set passed to the rolling update is the length-`d`
prefix of the re-queried list in engine order, sorted oldest-first among
itself; it coincides with the `d` oldest containers when the engine
already returned the list oldest-first. -/
theorem containersToUpdateSelection_amended (q : List ContainerSummary) (d : Nat) :
    containersToUpdateSelection q d
        = sortContainersByCreationTime (q.take d) false
      ∧ (containersToUpdateSelection q d).Perm (q.take d)
      ∧ (containersToUpdateSelection q d).Pairwise
          (fun x y => x.created ≤ y.created)
      ∧ (q.Pairwise (fun x y => x.created ≤ y.created) →
          containersToUpdateSelection q d = oldestByCreated q d) := by
  have htrunc : (if d < q.length then q.take d else q) = q.take d := by
    by_cases h : d < q.length
    · simp [h]
    · simp [h, List.take_of_length_le (le_of_not_lt h)]
  have heq : containersToUpdateSelection q d
      = sortContainersByCreationTime (q.take d) false := by
    unfold containersToUpdateSelection
    rw [htrunc]
  refine ⟨heq, ?_, ?_, ?_⟩
  · rw [heq]; exact sortContainersByCreationTime_perm _ _
  · rw [heq]; exact sortContainersByCreationTime_asc_pairwise _
  · intro hq
    have htake : (q.take d).Pairwise (fun x y => x.created ≤ y.created) :=
      hq.sublist (List.take_sublist d q)
    rw [heq, sortContainersByCreationTime_of_sorted _ htake]
    unfold oldestByCreated
    rw [sortContainersByCreationTime_of_sorted _ hq]

/-- Witness for C1's amended statement on a concrete ascending list. -/
theorem containersToUpdateSelection_amended_witness :
    containersToUpdateSelection [⟨"x", [], 1⟩, ⟨"y", [], 2⟩] 1
      = oldestByCreated [⟨"x", [], 1⟩, ⟨"y", [], 2⟩] 1 :=
  (containersToUpdateSelection_amended [⟨"x", [], 1⟩, ⟨"y", [], 2⟩] 1).2.2.2
    (by decide)

/-- C2 (divergence evaluation): a service carrying the documented label
`com.dokku.orchestrate/skip="true"` with a non-database image is *not*
skipped by `shouldSkipService`, for either value of the skip-databases
flag: the implemented policy consults only the database detector, with
no model, provider or skip-label check.  (The repository README
documents all three checks; cf. the database check, which does fire.) -/
theorem shouldSkipService_ignores_skip_label :
    shouldSkipService exShortNameOf skipLabeledService true = false
      ∧ shouldSkipService exShortNameOf skipLabeledService false = false
      ∧ skipLabeledService.labels = [("com.dokku.orchestrate/skip", "true")]
      ∧ shouldSkipService exShortNameOf
          { name := "db", image := "postgres:14", labels := [] } true = true := by
  refine ⟨rfl, rfl, rfl, rfl⟩

/-- Boolean shape of the ratio gate (for a nonnegative bound and
counters with `failures ≤ totalUpdates`). -/
theorem ratioGT_eq_true (f u : Nat) (bound : ℚ) (h : f ≤ u) (hb : 0 ≤ bound) :
    ratioGT f u bound = true ↔ bound < (f : ℚ) / (u : ℚ) := by
  unfold ratioGT
  by_cases hu : u = 0
  · subst hu
    have hf : f = 0 := Nat.le_zero.mp h
    subst hf
    simp [not_lt.mpr hb]
  · simp [hu]

/-- C3: after all workers of a batch join, the batch errs exactly when
the accumulated counters breach the ratio gate (positive bound and
`failures/totalUpdates > bound`) or the pause gate
(`failure_action = pause` and any failure); both
`rollingUpdateBatchStartFirst` and `rollingUpdateBatchStopFirst` raise
exactly the shared check's verdict once their pre-worker stages
succeed. -/
theorem batchFailureCheck_spec (f u : Nat) (bound : ℚ) (action : String)
    (h : f ≤ u) :
    ((checkBatchFailureRatio f u bound action).isSome ↔
        ((0 < bound ∧ bound < (f : ℚ) / (u : ℚ))
          ∨ (action = "pause" ∧ 0 < f)))
      ∧ (∀ (env : StartFirstEnv) (cfg : RollingUpdateConfig)
          (batch : List ContainerSummary) (counters : UpdateCounters),
          env.upOk = true →
          (rollingUpdateBatchStartFirst env cfg batch counters).err =
            checkBatchFailureRatio
              (rollingUpdateBatchStartFirst env cfg batch counters).counters.failures
              (rollingUpdateBatchStartFirst env cfg batch counters).counters.totalUpdates
              cfg.ratioBound cfg.failureAction)
      ∧ (∀ (env : StopFirstEnv) (cfg : RollingUpdateConfig)
          (batch : List ContainerSummary) (counters : UpdateCounters),
          (∀ c ∈ batch, env.termOkOld c.id = true) →
          env.upOk = true →
          (rollingUpdateBatchStopFirst env cfg batch counters).err =
            checkBatchFailureRatio
              (rollingUpdateBatchStopFirst env cfg batch counters).counters.failures
              (rollingUpdateBatchStopFirst env cfg batch counters).counters.totalUpdates
              cfg.ratioBound cfg.failureAction) := by
  refine ⟨?_, ?_, ?_⟩
  · unfold checkBatchFailureRatio
    by_cases hb : 0 < bound
    · by_cases hr : ratioGT f u bound = true
      · have hlt := (ratioGT_eq_true f u bound h (le_of_lt hb)).mp hr
        by_cases hpause : action = "pause" <;> simp [hb, hr, hpause, hlt]
      · have hnlt : ¬ bound < (f : ℚ) / (u : ℚ) := fun hl =>
          hr ((ratioGT_eq_true f u bound h (le_of_lt hb)).mpr hl)
        by_cases hpause : action = "pause" <;> by_cases hf : 0 < f <;>
          simp [hb, hr, hpause, hf, hnlt]
    · by_cases hpause : action = "pause" <;> by_cases hf : 0 < f <;>
        simp [hb, hpause, hf]
  · intro env cfg batch counters hup
    simp [rollingUpdateBatchStartFirst, hup]
  · intro env cfg batch counters hterm hup
    have hno : ¬ ∃ x ∈ batch, env.termOkOld x.id = false := by
      rintro ⟨c, hc, hfalse⟩
      rw [hterm c hc] at hfalse
      exact Bool.noConfusion hfalse
    simp [rollingUpdateBatchStopFirst, hup, hno]

/-- Witness for C3 at concrete counters: one failure out of two updates
breaches a bound of 1/4 and, independently, pauses the deployment under
`failure_action = pause`. -/
theorem batchFailureCheck_spec_witness :
    (checkBatchFailureRatio 1 2 (1/4 : ℚ) "").isSome
      ∧ (checkBatchFailureRatio 1 2 0 "pause").isSome := by
  constructor
  · exact ((batchFailureCheck_spec 1 2 (1/4 : ℚ) "" (by decide)).1).mpr
      (Or.inl (by norm_num))
  · exact ((batchFailureCheck_spec 1 2 0 "pause" (by decide)).1).mpr
      (Or.inr (by norm_num))

/-- In a list of booleans, the `true` count and the `false` count add up
to the length. -/
theorem countP_true_add_countP_false (hs : List Bool) :
    hs.countP (fun b => b = true) + hs.countP (fun b => b = false) = hs.length := by
  induction hs with
  | nil => rfl
  | cons h t ih => cases h <;> simp [List.countP_cons] at ih ⊢ <;> omega

/-- Closed form of the start-first worker fan-out: the workers terminate
exactly the first `countTrue healthResults` containers of the queue (in
queue order), spawn `healthResults.length` total updates and record one
failure per failed health check. -/
theorem runStartFirstWorkers_eq (hs : List Bool) (q : List ContainerSummary) :
    runStartFirstWorkers hs q
      = (q.take (hs.countP (fun b => b = true)), hs.length,
          hs.countP (fun b => b = false)) := by
  induction hs generalizing q with
  | nil => simp [runStartFirstWorkers]
  | cons h hs ih =>
      cases h
      · simp [runStartFirstWorkers, ih, List.countP_cons]
      · cases q with
        | nil => simp [runStartFirstWorkers, ih, List.countP_cons]
        | cons o rest => simp [runStartFirstWorkers, ih, List.countP_cons]

/-- Accumulated facts about the chunked start-first update: the
terminated-old count plus the failure count equals the total-update
count, and the terminated list is a sublist of the work list. -/
theorem runStartFirstUpdate_props (p : Nat) :
    ∀ (n : Nat) (olds : List ContainerSummary) (healthLists : List (List Bool)),
      olds.length ≤ n →
      ((runStartFirstUpdate (p + 1) olds healthLists).1.length
          + (runStartFirstUpdate (p + 1) olds healthLists).2.2
        = (runStartFirstUpdate (p + 1) olds healthLists).2.1)
      ∧ (runStartFirstUpdate (p + 1) olds healthLists).1.Sublist olds := by
  intro n
  induction n with
  | zero =>
      intro olds healthLists hlen
      have holds : olds = [] := List.eq_nil_of_length_eq_zero (Nat.le_zero.mp hlen)
      subst holds
      simp [runStartFirstUpdate]
  | succ n ih =>
      intro olds healthLists hlen
      cases olds with
      | nil => simp [runStartFirstUpdate]
      | cons a rest =>
          have hrest : ((a :: rest).drop (p + 1)).length ≤ n := by
            simp only [List.length_drop, List.length_cons]
            have : rest.length + 1 ≤ n + 1 := by simpa using hlen
            omega
          have ihd := ih ((a :: rest).drop (p + 1)) healthLists.tail hrest
          have hcnt :
              ((healthLists.headD []).take ((a :: rest).take (p + 1)).length).countP
                  (fun b => b = true)
                ≤ ((a :: rest).take (p + 1)).length :=
            le_trans (List.countP_le_length _) (List.length_take_le _ _)
          simp only [runStartFirstUpdate, runStartFirstWorkers_eq]
          constructor
          · have hlen1 :
                (((a :: rest).take (p + 1)).take
                    (((healthLists.headD []).take ((a :: rest).take (p + 1)).length).countP
                      (fun b => b = true))).length
                  = ((healthLists.headD []).take ((a :: rest).take (p + 1)).length).countP
                      (fun b => b = true) := by
              rw [List.length_take]
              omega
            have hsum := countP_true_add_countP_false
              ((healthLists.headD []).take ((a :: rest).take (p + 1)).length)
            simp only [List.length_append]
            rw [hlen1]
            omega
          · have h1 :
                (((a :: rest).take (p + 1)).take
                    (((healthLists.headD []).take ((a :: rest).take (p + 1)).length).countP
                      (fun b => b = true))).Sublist ((a :: rest).take (p + 1)) :=
              List.take_sublist _ _
            have happend :=
              List.Sublist.append h1 ihd.2
            rw [List.take_append_drop] at happend
            exact happend

/-- C4: across a full start-first rolling update (any parallelism
`p + 1 ≥ 1`, any work list, any per-batch health outcomes), the number
of old containers terminated plus the number of failed health checks
equals the number of spawned workers (one per capped new container), so
old terminations = health-check passes; the terminated old containers
form a sublist of the work list (each batch member retired at most once
and in order), and distinct work-list entries are never terminated
twice. -/
theorem startFirstUpdate_single_retirement (p : Nat)
    (olds : List ContainerSummary) (healthLists : List (List Bool)) :
    ((runStartFirstUpdate (p + 1) olds healthLists).1.length
        + (runStartFirstUpdate (p + 1) olds healthLists).2.2
      = (runStartFirstUpdate (p + 1) olds healthLists).2.1)
    ∧ (runStartFirstUpdate (p + 1) olds healthLists).1.Sublist olds
    ∧ (olds.Nodup → (runStartFirstUpdate (p + 1) olds healthLists).1.Nodup) := by
  have hprops := runStartFirstUpdate_props p olds.length olds healthLists le_rfl
  exact ⟨hprops.1, hprops.2, fun hnodup => hprops.2.nodup hnodup⟩

/-- Witness for C4: parallelism 1 over two old containers, the first
new container healthy and the second unhealthy — the single terminated
old container is duplicate-free. -/
theorem startFirstUpdate_single_retirement_witness :
    (runStartFirstUpdate 1 [⟨"o1", [], 10⟩, ⟨"o2", [], 20⟩]
        [[true], [false]]).1.Nodup :=
  (startFirstUpdate_single_retirement 0 [⟨"o1", [], 10⟩, ⟨"o2", [], 20⟩]
      [[true], [false]]).2.2 (by decide)

/-- C10: a start-first batch whose post-`compose up` listing contains
only containers already present in the pre-batch snapshot (no
newcomers), entered with zero accumulated counters, spawns no workers,
terminates no old containers and returns success: the ratio gate sees
the 0/0 division (NaN in the source, compared false) and the pause gate
sees zero failures. -/
theorem startFirstBatch_no_newcomers (env : StartFirstEnv)
    (cfg : RollingUpdateConfig) (batch : List ContainerSummary)
    (hup : env.upOk = true)
    (hold : ∀ c ∈ env.allAfterUp, ∃ e ∈ env.currentRunning, e.id = c.id) :
    rollingUpdateBatchStartFirst env cfg batch ⟨0, 0⟩
      = ⟨[], ⟨0, 0⟩, none⟩ := by
  have hnew : newContainersOf env.allAfterUp env.currentRunning = [] := by
    unfold newContainersOf
    rw [List.filter_eq_nil_iff]
    intro c hc
    obtain ⟨e, he, heid⟩ := hold c hc
    have hany : env.currentRunning.any (fun e => e.id = c.id) = true :=
      List.any_eq_true.mpr ⟨e, he, by simp [heid]⟩
    simp [hany]
  simp [rollingUpdateBatchStartFirst, hup, hnew, capToNewest,
    runStartFirstWorkers, checkBatchFailureRatio, ratioGT]

/-- Witness for C10: one running container, relisted unchanged after
`compose up`; the batch is a no-op success. -/
theorem startFirstBatch_no_newcomers_witness :
    rollingUpdateBatchStartFirst
        ⟨[⟨"c1", ["/c1"], 5⟩], true, [⟨"c1", ["/c1"], 5⟩], fun _ => true⟩
        ⟨1/2, "pause"⟩ [⟨"c1", ["/c1"], 5⟩] ⟨0, 0⟩
      = ⟨[], ⟨0, 0⟩, none⟩ :=
  startFirstBatch_no_newcomers
    ⟨[⟨"c1", ["/c1"], 5⟩], true, [⟨"c1", ["/c1"], 5⟩], fun _ => true⟩
    ⟨1/2, "pause"⟩ [⟨"c1", ["/c1"], 5⟩] rfl (by decide)

/-- C9: the batch loop `for i := 0; i < n; i += parallelism` (shared by
`rollingUpdateContainers` and `scaleUpContainers`, neither of which
validates `Parallelism`) terminates for every positive parallelism —
and then its batches exactly cover the work list — while for
`parallelism ≤ 0` over a nonempty work list the index never reaches the
bound, so the loop never exits. -/
theorem batchLoop_parallelism_termination :
    (∀ par : Int, 1 ≤ par → ∀ n : Nat, ∃ k : Nat, (n : Int) ≤ batchLoopIndex par k)
      ∧ (∀ par : Int, par ≤ 0 → ∀ n : Nat, 1 ≤ n →
          ∀ k : Nat, batchLoopIndex par k < (n : Int))
      ∧ (∀ (p : Nat) (l : List ContainerSummary),
          (batchChunks (p + 1) l).flatten = l) := by
  refine ⟨?_, ?_, ?_⟩
  · intro par hpar n
    refine ⟨n, ?_⟩
    unfold batchLoopIndex
    exact le_mul_of_one_le_right (Int.natCast_nonneg n) hpar
  · intro par hpar n hn k
    unfold batchLoopIndex
    have h1 : (k : Int) * par ≤ (k : Int) * 0 :=
      mul_le_mul_of_nonneg_left hpar (Int.natCast_nonneg k)
    have h2 : (0 : Int) < (n : Int) := by exact_mod_cast hn
    simpa using lt_of_le_of_lt (by simpa using h1) h2
  · intro p l
    suffices h : ∀ (n : Nat) (l : List ContainerSummary), l.length ≤ n →
        (batchChunks (p + 1) l).flatten = l by
      exact h l.length l le_rfl
    intro n
    induction n with
    | zero =>
        intro l hlen
        have hl : l = [] := List.eq_nil_of_length_eq_zero (Nat.le_zero.mp hlen)
        subst hl
        simp [batchChunks]
    | succ n ih =>
        intro l hlen
        cases l with
        | nil => simp [batchChunks]
        | cons a rest =>
            have hrest : ((a :: rest).drop (p + 1)).length ≤ n := by
              simp only [List.length_drop, List.length_cons]
              have : rest.length + 1 ≤ n + 1 := by simpa using hlen
              omega
            simp only [batchChunks, List.flatten_cons]
            rw [ih _ hrest, List.take_append_drop]

/-- Witness for C9: with parallelism 1 the index reaches a bound of 3,
with parallelism 0 it never reaches it. -/
theorem batchLoop_parallelism_termination_witness :
    (∃ k : Nat, (3 : Int) ≤ batchLoopIndex 1 k)
      ∧ batchLoopIndex 0 5 < (3 : Int) :=
  ⟨batchLoop_parallelism_termination.1 1 (by decide) 3,
    batchLoop_parallelism_termination.2.1 0 (by decide) 3 (by decide) 5⟩

/-- A removal run over containers whose terminations all succeed emits
the full pre-stop/terminate/post-stop trace and reports success. -/
theorem processRemovals_all_ok (termOk preOk postOk : String → Bool)
    (l : List ContainerSummary) (h : ∀ c ∈ l, termOk c.id = true) :
    processRemovals termOk preOk postOk l = (scaleDownTrace preOk postOk l, true) := by
  induction l with
  | nil => rfl
  | cons c rest ih =>
      have hc : termOk c.id = true := h c (List.mem_cons_self c rest)
      have hrest := ih (fun c1 hc1 => h c1 (List.mem_cons_of_mem c hc1))
      simp [processRemovals, scaleDownTrace, hc, hrest]

/-- A removal run stops at the first failing terminate: the containers
before it get their full triple, the failing one gets pre-stop and the
terminate attempt, and nothing after it is touched. -/
theorem processRemovals_first_fail (termOk preOk postOk : String → Bool) :
    ∀ (l1 : List ContainerSummary) (c : ContainerSummary)
      (l2 : List ContainerSummary),
      (∀ c1 ∈ l1, termOk c1.id = true) → termOk c.id = false →
      processRemovals termOk preOk postOk (l1 ++ c :: l2)
        = (scaleDownTrace preOk postOk l1 ++
            [ScaleDownEvent.preStop c.id (preOk c.id),
              ScaleDownEvent.terminateOld c.id], false) := by
  intro l1
  induction l1 with
  | nil =>
      intro c l2 _ hfail
      simp [processRemovals, scaleDownTrace, hfail]
  | cons a l1 ih =>
      intro c l2 hok hfail
      have ha : termOk a.id = true := hok a (List.mem_cons_self a l1)
      have hrest := ih c l2 (fun c1 hc1 => hok c1 (List.mem_cons_of_mem a hc1)) hfail
      simp [processRemovals, scaleDownTrace, ha, hrest]

/-- The success flag of a removal run does not depend on the script
outcomes: pre-stop and post-stop results are recorded and swallowed. -/
theorem processRemovals_flag_indep (termOk p1 q1 p2 q2 : String → Bool)
    (l : List ContainerSummary) :
    (processRemovals termOk p1 q1 l).2 = (processRemovals termOk p2 q2 l).2 := by
  induction l with
  | nil => rfl
  | cons c rest ih =>
      by_cases hc : termOk c.id = true
      · simp [processRemovals, hc, ih]
      · simp [processRemovals, Bool.of_not_eq_true hc]

/-- C5: with `currentReplicas = N` matching the list, a desired count
`k < N` and pairwise-distinct creation times, scale-down processes
exactly the `N − k` oldest containers in ascending `created` order:
(i) when every terminate succeeds the run is the full
pre-stop/terminate/post-stop trace over the `N − k` prefix of the
ascending sort, reported as success; (ii) every processed container is
strictly older than every survivor (so exactly the `N − k`
smallest-`created` are removed — the sorted list is a permutation of
the input); (iii) the first failing terminate ends the run immediately,
leaving the remaining containers untouched; and (iv) the success flag
ignores the pre/post-stop script outcomes. -/
theorem scaleDownContainers_oldest_first (cs : List ContainerSummary) (k : Nat)
    (termOk preOk postOk : String → Bool)
    (hdist : cs.Pairwise (fun a b => a.created ≠ b.created))
    (hk : k < cs.length) :
    ((∀ c ∈ (sortContainersByCreationTime cs false).take (cs.length - k),
        termOk c.id = true) →
      scaleDownContainers cs (cs.length : Int) (k : Int) termOk preOk postOk
        = (scaleDownTrace preOk postOk
            ((sortContainersByCreationTime cs false).take (cs.length - k)), true))
    ∧ (∀ c1 ∈ (sortContainersByCreationTime cs false).take (cs.length - k),
        ∀ c2 ∈ (sortContainersByCreationTime cs false).drop (cs.length - k),
          c1.created < c2.created)
    ∧ ((sortContainersByCreationTime cs false).Perm cs)
    ∧ (∀ (l1 : List ContainerSummary) (c : ContainerSummary)
        (l2 : List ContainerSummary),
        (sortContainersByCreationTime cs false).take (cs.length - k)
          = l1 ++ c :: l2 →
        (∀ c1 ∈ l1, termOk c1.id = true) → termOk c.id = false →
        scaleDownContainers cs (cs.length : Int) (k : Int) termOk preOk postOk
          = (scaleDownTrace preOk postOk l1 ++
              [ScaleDownEvent.preStop c.id (preOk c.id),
                ScaleDownEvent.terminateOld c.id], false))
    ∧ (∀ p2 q2 : String → Bool,
        (scaleDownContainers cs (cs.length : Int) (k : Int) termOk preOk postOk).2
          = (scaleDownContainers cs (cs.length : Int) (k : Int) termOk p2 q2).2) := by
  have hpos : ¬ ((cs.length : Int) - (k : Int) ≤ 0) := by omega
  have htonat : ((cs.length : Int) - (k : Int)).toNat = cs.length - k := by omega
  have heq : ∀ pre post : String → Bool,
      scaleDownContainers cs (cs.length : Int) (k : Int) termOk pre post
        = processRemovals termOk pre post
            ((sortContainersByCreationTime cs false).take (cs.length - k)) := by
    intro pre post
    unfold scaleDownContainers
    rw [if_neg hpos, htonat]
  refine ⟨?_, ?_, sortContainersByCreationTime_perm cs false, ?_, ?_⟩
  · intro hall
    rw [heq, processRemovals_all_ok termOk preOk postOk _ hall]
  · have hperm := sortContainersByCreationTime_perm cs false
    have hsymm : Symmetric (fun a b : ContainerSummary => a.created ≠ b.created) :=
      fun _ _ hab h => hab h.symm
    have hne : (sortContainersByCreationTime cs false).Pairwise
        (fun a b => a.created ≠ b.created) :=
      (hperm.pairwise_iff (fun h => hsymm h)).mpr hdist
    have hle := sortContainersByCreationTime_asc_pairwise cs
    have hlt : (sortContainersByCreationTime cs false).Pairwise
        (fun a b => a.created < b.created) := by
      have hand := hle.and hne
      exact hand.imp (fun hab => lt_of_le_of_ne hab.1 hab.2)
    have hsplit := hlt
    rw [← List.take_append_drop (cs.length - k)
      (sortContainersByCreationTime cs false)] at hsplit
    exact (List.pairwise_append.mp hsplit).2.2
  · intro l1 c l2 hdecomp hok hfail
    rw [heq, hdecomp, processRemovals_first_fail termOk preOk postOk l1 c l2 hok hfail]
  · intro p2 q2
    rw [heq, heq]
    exact processRemovals_flag_indep termOk preOk postOk p2 q2 _

/-- Witness for C5 on three containers (created 100, 200, 300) scaled
down to one with all terminations succeeding: the two oldest get the
full script/terminate triple, oldest first. -/
theorem scaleDownContainers_oldest_first_witness :
    scaleDownContainers
        [⟨"b", [], 200⟩, ⟨"a", [], 100⟩, ⟨"c", [], 300⟩] 3 1
        (fun _ => true) (fun _ => true) (fun _ => true)
      = ([ScaleDownEvent.preStop "a" true, ScaleDownEvent.terminateOld "a",
          ScaleDownEvent.postStop "a" true,
          ScaleDownEvent.preStop "b" true, ScaleDownEvent.terminateOld "b",
          ScaleDownEvent.postStop "b" true], true) := by
  have h := (scaleDownContainers_oldest_first
    [⟨"b", [], 200⟩, ⟨"a", [], 100⟩, ⟨"c", [], 300⟩] 1
    (fun _ => true) (fun _ => true) (fun _ => true)
    (by decide) (by decide)).1 (by decide)
  simpa using h

/-- A rename loop over containers whose current first names already
match the rendered convention issues no engine calls. -/
theorem renameLoop_eq_nil (render : Nat → String) :
    ∀ (l : List ContainerSummary) (base : Nat),
      (∀ i (hi : i < l.length), firstNameOf (l.get ⟨i, hi⟩) = render (base + i)) →
      renameLoop render l base = [] := by
  intro l
  induction l with
  | nil => intro base _; rfl
  | cons c rest ih =>
      intro base h
      have h0 : firstNameOf c = render base := by
        have := h 0 (by simp)
        simpa using this
      have hrest : renameLoop render rest (base + 1) = [] := by
        apply ih (base + 1)
        intro i hi
        have := h (i + 1) (by simpa using Nat.succ_lt_succ hi)
        simpa [Nat.add_assoc, Nat.add_comm 1 i] using this
      simp [renameLoop, h0, hrest]

/-- C6: the final rename pass is idempotent — on any container list in
which the `i`-th container of the oldest-first sort already carries the
name rendered at `InstanceID = i + 1` (first engine name, leading slash
stripped), `renameContainersToConvention` issues zero rename engine
calls (and thus returns success). -/
theorem renameContainersToConvention_idempotent
    (containers : List ContainerSummary) (render : Nat → String)
    (h : ∀ i (hi : i < (sortContainersByCreationTime containers false).length),
        firstNameOf ((sortContainersByCreationTime containers false).get ⟨i, hi⟩)
          = render (i + 1)) :
    renameContainersToConvention containers render = [] := by
  unfold renameContainersToConvention
  by_cases hempty : containers.isEmpty
  · simp [hempty]
  · rw [if_neg hempty]
    apply renameLoop_eq_nil
    intro i hi
    rw [h i hi, Nat.add_comm 1 i]

/-- Witness for C6: two containers already named by the convention,
oldest first — zero renames. -/
theorem renameContainersToConvention_idempotent_witness :
    renameContainersToConvention
        [⟨"id2", ["/proj-web-2"], 200⟩, ⟨"id1", ["/proj-web-1"], 100⟩]
        (fun i => if i = 1 then "proj-web-1" else "proj-web-2") = [] :=
  renameContainersToConvention_idempotent
    [⟨"id2", ["/proj-web-2"], 200⟩, ⟨"id1", ["/proj-web-1"], 100⟩]
    (fun i => if i = 1 then "proj-web-1" else "proj-web-2")
    (by decide)

/-- C7: the engine-health waiting stage.  A zero monitor is replaced by
1 ms (10^6 ns); the deadline is `now + 2 * monitor`; a tick past the
deadline fails with the timeout error; otherwise, with no health config
the tick succeeds exactly when the container is running and fails with
the not-running error otherwise; with health config it succeeds on
"healthy", fails on "unhealthy", and keeps waiting on "starting" or any
other status — and the wait loop consumes ticks until the first
decisive outcome. -/
theorem waitForDockerHealthCheck_spec :
    effectiveMonitor 0 = 1000000
    ∧ (∀ m : Int, m ≠ 0 → effectiveMonitor m = m)
    ∧ (∀ startTime m : Int,
        healthDeadline startTime m = startTime + 2 * effectiveMonitor m)
    ∧ (∀ d now : Int, ∀ inspected, d < now →
        healthCheckTick d now inspected = TickOutcome.failed "health check timeout")
    ∧ (∀ d now : Int, ∀ st : HealthState, now ≤ d → st.health = none →
        (healthCheckTick d now (some st) = TickOutcome.success ↔ st.running = true)
        ∧ (st.running = false →
            healthCheckTick d now (some st)
              = TickOutcome.failed "container is not running"))
    ∧ (∀ d now : Int, ∀ st : HealthState, ∀ status : String,
        now ≤ d → st.health = some status →
        (status = "healthy" →
          healthCheckTick d now (some st) = TickOutcome.success)
        ∧ (status = "unhealthy" →
            healthCheckTick d now (some st)
              = TickOutcome.failed "container is unhealthy")
        ∧ (status ≠ "healthy" → status ≠ "unhealthy" →
            healthCheckTick d now (some st) = TickOutcome.continueWaiting))
    ∧ (∀ (m startTime now : Int) (inspected : Option HealthState)
        (rest : List (Int × Option HealthState)),
        (healthCheckTick (healthDeadline startTime m) now inspected
            = TickOutcome.continueWaiting →
          waitForDockerHealthCheck m startTime ((now, inspected) :: rest)
            = waitForDockerHealthCheck m startTime rest)
        ∧ (∀ outcome,
            healthCheckTick (healthDeadline startTime m) now inspected = outcome →
            outcome ≠ TickOutcome.continueWaiting →
            waitForDockerHealthCheck m startTime ((now, inspected) :: rest)
              = some outcome)) := by
  refine ⟨rfl, ?_, ?_, ?_, ?_, ?_, ?_⟩
  · intro m hm
    simp [effectiveMonitor, hm]
  · intro startTime m
    rfl
  · intro d now inspected hlt
    simp [healthCheckTick, hlt]
  · intro d now st hle hnone
    have hnlt : ¬ d < now := not_lt.mpr hle
    cases hr : st.running <;>
      simp [healthCheckTick, hnlt, hnone, hr]
  · intro d now st status hle hsome
    have hnlt : ¬ d < now := not_lt.mpr hle
    refine ⟨?_, ?_, ?_⟩
    · intro hh
      simp [healthCheckTick, hnlt, hsome, hh]
    · intro hu
      simp [healthCheckTick, hnlt, hsome, hu]
    · intro hnh hnu
      simp [healthCheckTick, hnlt, hsome, hnh, hnu]
  · intro m startTime now inspected rest
    constructor
    · intro hcont
      simp [waitForDockerHealthCheck, hcont]
    · intro outcome houtcome hne
      rw [waitForDockerHealthCheck, houtcome]
      cases outcome with
      | success => rfl
      | failed msg => rfl
      | continueWaiting => exact absurd rfl hne

/-- Witness for C7: with monitor 50 and start 0, a tick at time 101 is
past the `2 * 50` deadline and fails with the timeout error, while a
tick at time 80 of a running container without health config
succeeds. -/
theorem waitForDockerHealthCheck_spec_witness :
    healthCheckTick (healthDeadline 0 50) 101 (some ⟨true, none⟩)
        = TickOutcome.failed "health check timeout"
      ∧ (healthCheckTick (healthDeadline 0 50) 80 (some ⟨true, none⟩)
          = TickOutcome.success) :=
  ⟨waitForDockerHealthCheck_spec.2.2.2.1 (healthDeadline 0 50) 101
      (some ⟨true, none⟩) (by decide),
    (waitForDockerHealthCheck_spec.2.2.2.2.1 (healthDeadline 0 50) 80
        ⟨true, none⟩ (by decide) rfl).1.mpr rfl⟩
